import Mathlib

/-!
# dht-crawler: orchestration (`main.go`) and persistence (`persistence/postgres.go`)

A shallow embedding of the event loop of `main`, of `checkAddrs`, and of the
PostgreSQL persistence operations `DoesTorrentExist` and `AddNewTorrent`.

Conventions of the embedding:

* a Go `string` is the list of its bytes (`GoString`), since `utf8.ValidString`
  inspects bytes; address strings and message texts are Lean `String`s;
* a Go `error` is `Option GoError`, `none` being `nil`;
* the database connection is an explicit committed state `DB` plus an
  environment `Env` that fixes, for each database call of one operation,
  whether it succeeds or fails;
* a transaction is an explicit value `Tx` holding the rows written so far,
  applied to the committed state only by a successful `Commit`.
-/

namespace DhtCrawler

/-! ## Errors -/

/-- Go `error` values: a base error, or `errors.Wrap(cause, msg)`. -/
inductive GoError where
  | base (msg : String)
  | wrap (cause : GoError) (msg : String)
  deriving DecidableEq, Repr

/-! ## Strings and `utf8.ValidString` -/

/-- A Go string, as its sequence of bytes. -/
abbrev GoString := List Nat

/-- A continuation byte within the inclusive range `lo..hi`. -/
def inRange (lo hi b : Nat) : Bool := decide (lo ≤ b) && decide (b ≤ hi)

/-- Go standard library `unicode/utf8.ValidString`, on the bytes of the string:
every encoded rune is a shortest-form, non-surrogate code point up to U+10FFFF. -/
def utf8ValidString : GoString → Bool
  | [] => true
  | b0 :: rest =>
    if b0 < 0x80 then utf8ValidString rest
    else if inRange 0xC2 0xDF b0 then
      match rest with
      | b1 :: r => inRange 0x80 0xBF b1 && utf8ValidString r
      | _ => false
    else if inRange 0xE0 0xEF b0 then
      match rest with
      | b1 :: b2 :: r =>
        (if b0 = 0xE0 then inRange 0xA0 0xBF b1
         else if b0 = 0xED then inRange 0x80 0x9F b1
         else inRange 0x80 0xBF b1)
        && inRange 0x80 0xBF b2 && utf8ValidString r
      | _ => false
    else if inRange 0xF0 0xF4 b0 then
      match rest with
      | b1 :: b2 :: b3 :: r =>
        (if b0 = 0xF0 then inRange 0x90 0xBF b1
         else if b0 = 0xF4 then inRange 0x80 0x8F b1
         else inRange 0x80 0xBF b1)
        && inRange 0x80 0xBF b2 && inRange 0x80 0xBF b3 && utf8ValidString r
      | _ => false
    else false

/-! ## Data model of the persistence layer -/

/-- Go `persistence.File`: `Size int64`, `Path string`. The struct is declared in
the persistence package outside `postgres.go`; `Size` is kept as an integer and
converted with `toUint64` exactly where the code writes `uint64(file.Size)`. -/
structure File where
  Size : Int
  Path : GoString
  deriving DecidableEq, Repr

/-- A row of table `torrents`. -/
structure TorrentRow where
  id : Int
  infoHash : List Nat
  name : GoString
  totalSize : Nat
  discoveredOn : Int
  deriving DecidableEq, Repr

/-- A row of table `files`. -/
structure FileRow where
  torrentId : Int
  size : Int
  path : GoString
  deriving DecidableEq, Repr

/-- The committed state of the database. -/
structure DB where
  torrents : List TorrentRow
  files : List FileRow
  deriving DecidableEq, Repr

/-- The outcome of every database call made by one operation: `none` is success.
`queryErr` is the error of `conn.Query`, `rowsErr` the value of `rows.Err()`
after `rows.Next()`, `insertErr` the error of the `INSERT INTO torrents ...
RETURNING id` scan, `lastInsertId` the id it returns, `execErr i` the error of
the insertion of the file at index `i`, `commitErr` the error of `tx.Commit`,
and `now` the value of `time.Now().Unix()`. -/
structure Env where
  beginErr : Option GoError
  queryErr : Option GoError
  rowsErr : Option GoError
  insertErr : Option GoError
  lastInsertId : Int
  execErr : Nat → Option GoError
  commitErr : Option GoError
  now : Int

/-- An environment in which every database call succeeds. -/
def Env.working (id now : Int) : Env :=
  { beginErr := none, queryErr := none, rowsErr := none, insertErr := none,
    lastInsertId := id, execErr := fun _ => none, commitErr := none, now := now }

/-- Every database call of the environment succeeds. -/
def Env.Working (env : Env) : Prop :=
  env.beginErr = none ∧ env.queryErr = none ∧ env.rowsErr = none ∧
  env.insertErr = none ∧ (∀ i, env.execErr i = none) ∧ env.commitErr = none

/-- The result set of `SELECT 1 FROM torrents WHERE info_hash = $1` after one
call of `rows.Next()`: `next` is what `Next` returned, `err` is `rows.Err()`. -/
structure Rows where
  next : Bool
  err : Option GoError
  deriving DecidableEq, Repr

/-- The committed state holds a torrent row with this infohash. -/
def DB.hasTorrent (db : DB) (infoHash : List Nat) : Bool :=
  db.torrents.any (fun t => decide (t.infoHash = infoHash))

/-- Call `conn.Query` then `rows.Next()`: the query fails with `queryErr`, or
yields a result set whose iteration either fails (`Next` is false and
`rows.Err()` is set) or reports whether a matching row is committed. -/
def connQuery (env : Env) (db : DB) (infoHash : List Nat) : Except GoError Rows :=
  match env.queryErr with
  | some e => .error e
  | none =>
    match env.rowsErr with
    | some e => .ok { next := false, err := some e }
    | none => .ok { next := db.hasTorrent infoHash, err := none }

/-- Body of `postgresDatabase.DoesTorrentExist`, given the outcome of the query.
The second `return false, err` returns the variable `err` of `conn.Query`,
which is `nil` there. -/
def doesTorrentExistOf (q : Except GoError Rows) : Bool × Option GoError :=
  match q with
  | .error e => (false, some e)
  | .ok rows =>
    let err : Option GoError := none
    let «exists» := rows.next
    if rows.err ≠ none then (false, err)
    else («exists», none)

/-- Go `postgresDatabase.DoesTorrentExist`. -/
def DoesTorrentExist (env : Env) (db : DB) (infoHash : List Nat) : Bool × Option GoError :=
  doesTorrentExistOf (connQuery env db infoHash)

/-- Go conversion `uint64(x)` of an `int64`. -/
def toUint64 (x : Int) : Nat := (x % 2 ^ 64).toNat

/-- The accumulation `totalSize += uint64(file.Size)` over the files, from `acc`. -/
def totalSizeFrom (acc : Nat) : List File → Nat
  | [] => acc
  | f :: fs => totalSizeFrom ((acc + toUint64 f.Size) % 2 ^ 64) fs

/-- The value of `totalSize` after the first loop of `AddNewTorrent`. -/
def totalSize (files : List File) : Nat := totalSizeFrom 0 files

/-- A transaction: the rows written so far and not yet committed. -/
structure Tx where
  torrents : List TorrentRow
  files : List FileRow
  deriving DecidableEq, Repr

/-- Go `conn.Begin`. -/
def connBegin (env : Env) : Except GoError Tx :=
  match env.beginErr with
  | some e => .error e
  | none => .ok { torrents := [], files := [] }

/-- Go `tx.Rollback`: the pending rows are dropped, the committed state stays. -/
def Tx.Rollback (_tx : Tx) (db : DB) : DB := db

/-- Go `tx.Commit`: on success the pending rows join the committed state. -/
def Tx.Commit (tx : Tx) (env : Env) (db : DB) : Option GoError × DB :=
  match env.commitErr with
  | some e => (some e, db)
  | none => (none, { torrents := db.torrents ++ tx.torrents, files := db.files ++ tx.files })

/-- Go `tx.QueryRow(INSERT INTO torrents ... RETURNING id).Scan(&lastInsertId)`. -/
def Tx.insertTorrent (tx : Tx) (env : Env) (infoHash : List Nat) (name : GoString)
    (total : Nat) : Except GoError (Int × Tx) :=
  match env.insertErr with
  | some e => .error e
  | none =>
    .ok (env.lastInsertId,
      { tx with torrents := tx.torrents ++
          [{ id := env.lastInsertId, infoHash := infoHash, name := name,
             totalSize := total, discoveredOn := env.now }] })

/-- Go `tx.Exec(INSERT INTO files (torrent_id, size, path) ...)` for the file at
index `i`. -/
def Tx.insertFile (tx : Tx) (env : Env) (i : Nat) (torrentId : Int) (f : File) :
    Except GoError Tx :=
  match env.execErr i with
  | some e => .error e
  | none => .ok { tx with files := tx.files ++ [{ torrentId := torrentId, size := f.Size, path := f.Path }] }

/-- How the second loop of `AddNewTorrent` ends: it ran through (`done`), or it
returned early with the given error value (`ret`). -/
inductive LoopExit where
  | done (tx : Tx)
  | ret (err : Option GoError)
  deriving DecidableEq, Repr

/-- The loop `for _, file := range files` that inserts the file rows, from index `i`. -/
def insertFiles (env : Env) (torrentId : Int) : Nat → List File → Tx → LoopExit
  | _, [], tx => .done tx
  | i, f :: fs, tx =>
    if !utf8ValidString f.Path then .ret none
    else
      match tx.insertFile env i torrentId f with
      | .error e => .ret (some (.wrap e "tx.Exec (INSERT INTO files)"))
      | .ok tx1 => insertFiles env torrentId (i + 1) fs tx1

/-- Go `postgresDatabase.AddNewTorrent`: the returned error and the committed
state after the call (the deferred `tx.Rollback` included). -/
def AddNewTorrent (env : Env) (db : DB) (infoHash : List Nat) (name : GoString)
    (files : List File) : Option GoError × DB :=
  if !utf8ValidString name then (none, db)
  else
    match connBegin env with
    | .error e => (some (.wrap e "conn.Begin"), db)
    | .ok tx =>
      let total := totalSize files
      if total = 0 then (none, tx.Rollback db)
      else
        let r := DoesTorrentExist env db infoHash
        if r.1 = true ∨ r.2 ≠ none then (r.2, tx.Rollback db)
        else
          match tx.insertTorrent env infoHash name total with
          | .error e => (some (.wrap e "tx.QueryRow (INSERT INTO torrents)"), tx.Rollback db)
          | .ok (lastInsertId, tx1) =>
            match insertFiles env lastInsertId 0 files tx1 with
            | .ret err => (err, tx1.Rollback db)
            | .done tx2 =>
              match tx2.Commit env db with
              | (some e, db1) => (some (.wrap e "tx.Commit"), tx2.Rollback db1)
              | (none, db1) => (none, db1)

/-! ## `main.go`: options, address check, construction, event loop -/

/-- Go `opts`, the operational flags. `time.Duration` is a count of nanoseconds. -/
structure opts where
  DatabaseURL : String
  IndexerAddrs : List String
  IndexerInterval : Int
  IndexerMaxNeighbors : Nat
  LeechMaxN : Nat
  Verbosity : Int
  Profile : String
  deriving DecidableEq, Repr

/-- The flag defaults declared on `opts`: one address `0.0.0.0:0`, interval `1s`,
1000 neighbours, 50 leeches, verbosity 1. -/
def opts.defaults : opts :=
  { DatabaseURL := "", IndexerAddrs := ["0.0.0.0:0"], IndexerInterval := 1000000000,
    IndexerMaxNeighbors := 1000, LeechMaxN := 50, Verbosity := 1, Profile := "" }

/-- The format `"%d(th) address (%s) error"` of `checkAddrs`. -/
def addrErrorMessage (n : Nat) (addr : String) : String :=
  toString n ++ "(th) address (" ++ addr ++ ") error"

/-- The loop of `checkAddrs`, from index `i`. `resolve addr` is the error of
`net.ResolveUDPAddr("udp", addr)`. The second component lists the addresses
handed to the resolver, in order. -/
def checkAddrsFrom (resolve : String → Option GoError) (i : Nat) :
    List String → Option GoError × List String
  | [] => (none, [])
  | addr :: rest =>
    match resolve addr with
    | some err => (some (.wrap err (addrErrorMessage (i + 1) addr)), [addr])
    | none =>
      let r := checkAddrsFrom resolve (i + 1) rest
      (r.1, addr :: r.2)

/-- Go `checkAddrs`: the returned error, and the addresses examined. -/
def checkAddrs (resolve : String → Option GoError) (addrs : List String) :
    Option GoError × List String :=
  checkAddrsFrom resolve 0 addrs

/-- The arguments of the call `dht.NewManager(...)` in `main`. -/
structure ManagerArgs where
  addrs : List String
  interval : Int
  maxNeighbors : Nat
  deriving DecidableEq, Repr

/-- The arguments of the call `metadata.NewSink(...)` in `main`, by position. -/
structure SinkArgs where
  arg1 : Int
  arg2 : Int
  deriving DecidableEq, Repr

/-- The call `dht.NewManager(opFlags.IndexerAddrs, opFlags.IndexerInterval,
opFlags.IndexerMaxNeighbors)`. -/
def newManagerArgs (opFlags : opts) : ManagerArgs :=
  { addrs := opFlags.IndexerAddrs, interval := opFlags.IndexerInterval,
    maxNeighbors := opFlags.IndexerMaxNeighbors }

/-- The call `metadata.NewSink(5*time.Second, opFlags.Verbosity)`. -/
def newSinkArgs (opFlags : opts) : SinkArgs :=
  { arg1 := 5 * 1000000000, arg2 := opFlags.Verbosity }

/-- Go interface `persistence.Database`, as far as `main` uses it, over a store
state `σ`. -/
structure Database (σ : Type) where
  DoesTorrentExist : σ → List Nat → (Bool × Option GoError) × σ
  AddNewTorrent : σ → List Nat → GoString → List File → Option GoError × σ
  Close : σ → Option GoError × σ

/-- The PostgreSQL implementation of the interface, every call of which meets
the outcomes fixed by `env`. -/
def postgresDatabase (env : Env) : Database DB :=
  { DoesTorrentExist := fun db h => (DhtCrawler.DoesTorrentExist env db h, db)
    AddNewTorrent := fun db h n fs => DhtCrawler.AddNewTorrent env db h n fs
    Close := fun db => (none, db) }

/-- A harvested candidate, an element of `trawlingManager.Output()`. -/
structure Result where
  infoHash : List Nat
  peerAddr : String
  deriving DecidableEq, Repr

/-- A completed metadata, an element of `metadataSink.Drain()`. -/
structure Metadata where
  InfoHash : List Nat
  Name : GoString
  Files : List File
  deriving DecidableEq, Repr

/-- What one `select` of the event loop receives. -/
inductive Event where
  | candidate (result : Result)
  | metadata (md : Metadata)
  | interrupt
  deriving DecidableEq, Repr

/-- The calls `main` makes on its collaborators, in the order made. -/
inductive Call where
  | debugTrawled (infoHash : List Nat)
  | doesTorrentExist (infoHash : List Nat)
  | sink (result : Result)
  | addNewTorrent (md : Metadata)
  | infoFetched (md : Metadata)
  | fatal (msg : String) (err : GoError)
  | terminate
  | close
  | errorLog (msg : String) (err : GoError)
  deriving DecidableEq, Repr

/-- Where control is after a loop iteration: the loop goes on, `stopped` was
set, or `zap.L().Fatal` ended the process. -/
inductive Control where
  | running
  | stopped
  | fatal
  deriving DecidableEq, Repr

/-- The effect of a piece of `main`: the calls made, the store, the control. -/
structure Run (σ : Type) where
  calls : List Call
  db : σ
  control : Control

/-- One iteration of the event loop: the `select` with its three cases. -/
def loopBody {σ : Type} (database : Database σ) (s : σ) : Event → Run σ
  | .candidate result =>
    let infoHash := result.infoHash
    let r := database.DoesTorrentExist s infoHash
    match r.1.2 with
    | some err =>
      { calls := [.debugTrawled infoHash, .doesTorrentExist infoHash,
                  .fatal "Could not check whether torrent exists!" err],
        db := r.2, control := .fatal }
    | none =>
      if !r.1.1 then
        { calls := [.debugTrawled infoHash, .doesTorrentExist infoHash, .sink result],
          db := r.2, control := .running }
      else
        { calls := [.debugTrawled infoHash, .doesTorrentExist infoHash],
          db := r.2, control := .running }
  | .metadata md =>
    let r := database.AddNewTorrent s md.InfoHash md.Name md.Files
    match r.1 with
    | some err =>
      { calls := [.addNewTorrent md, .fatal "Could not add new torrent to the database" err],
        db := r.2, control := .fatal }
    | none =>
      { calls := [.addNewTorrent md, .infoFetched md], db := r.2, control := .running }
  | .interrupt =>
    { calls := [.terminate], db := s, control := .stopped }

/-- The loop `for stopped := false; !stopped; { select ... }` over the events
received; with no event left the `select` blocks and the loop is still running. -/
def eventLoop {σ : Type} (database : Database σ) : σ → List Event → Run σ
  | s, [] => { calls := [], db := s, control := .running }
  | s, e :: es =>
    let r := loopBody database s e
    match r.control with
    | .running =>
      let r2 := eventLoop database r.db es
      { calls := r.calls ++ r2.calls, db := r2.db, control := r2.control }
    | _ => r

/-- The event loop followed by `database.Close()`, which is reached only when
the loop left with `stopped`. -/
def mainRun {σ : Type} (database : Database σ) (s : σ) (events : List Event) : Run σ :=
  let r := eventLoop database s events
  match r.control with
  | .stopped =>
    let c := database.Close r.db
    match c.1 with
    | some err =>
      { calls := r.calls ++ [.close, .errorLog "Could not close database!" err],
        db := c.2, control := .stopped }
    | none => { calls := r.calls ++ [.close], db := c.2, control := .stopped }
  | _ => r

/-! ## Shared lemmas on the persistence operations -/

/-- The file rows `AddNewTorrent` writes for a file list, in list order. -/
def fileRows (torrentId : Int) (files : List File) : List FileRow :=
  files.map (fun f => { torrentId := torrentId, size := f.Size, path := f.Path })

/-- The torrent row `AddNewTorrent` writes. -/
def torrentRow (env : Env) (infoHash : List Nat) (name : GoString) (files : List File) :
    TorrentRow :=
  { id := env.lastInsertId, infoHash := infoHash, name := name,
    totalSize := totalSize files, discoveredOn := env.now }

theorem insertFiles_done (env : Env) (id : Int) :
    ∀ (files : List File) (i : Nat) (tx tx2 : Tx),
      insertFiles env id i files tx = .done tx2 →
      tx2 = { torrents := tx.torrents, files := tx.files ++ fileRows id files } := by
  intro files
  induction files with
  | nil =>
    intro i tx tx2 h
    simp only [insertFiles, LoopExit.done.injEq] at h
    subst h
    simp [fileRows]
  | cons f fs ih =>
    intro i tx tx2 h
    unfold insertFiles at h
    split at h
    · exact absurd h (by simp)
    · unfold Tx.insertFile at h
      cases hx : env.execErr i with
      | some e => rw [hx] at h; exact absurd h (by simp)
      | none =>
        rw [hx] at h
        have := ih (i + 1) _ tx2 h
        rw [this]
        simp [fileRows]

theorem AddNewTorrent_state (env : Env) (db : DB) (infoHash : List Nat) (name : GoString)
    (files : List File) :
    (AddNewTorrent env db infoHash name files).2 = db ∨
    (AddNewTorrent env db infoHash name files).2 =
      { torrents := db.torrents ++ [torrentRow env infoHash name files],
        files := db.files ++ fileRows env.lastInsertId files } := by
  unfold AddNewTorrent
  split
  · left; rfl
  · unfold connBegin
    cases hb : env.beginErr with
    | some e => left; rfl
    | none =>
      simp only
      split
      · left; rfl
      · split
        · left; rfl
        · unfold Tx.insertTorrent
          cases hi : env.insertErr with
          | some e => left; rfl
          | none =>
            simp only
            split
            · left; rfl
            · rename_i tx2 hl
              have h2 := insertFiles_done env env.lastInsertId files 0 _ tx2 hl
              unfold Tx.Commit
              cases hc : env.commitErr with
              | some e => left; rfl
              | none =>
                right
                subst h2
                simp [torrentRow]

theorem insertFiles_invalid (env : Env) (id : Int) (bad : File) (post : List File)
    (hbad : utf8ValidString bad.Path = false) :
    ∀ (pre : List File) (i : Nat) (tx : Tx),
      (∀ j, j < pre.length → env.execErr (i + j) = none) →
      insertFiles env id i (pre ++ bad :: post) tx = .ret none := by
  intro pre
  induction pre with
  | nil =>
    intro i tx _
    simp [insertFiles, hbad]
  | cons f fs ih =>
    intro i tx h
    simp only [List.cons_append, insertFiles]
    split
    · rfl
    · have h0 : env.execErr i = none := by simpa using h 0 (by simp)
      simp only [Tx.insertFile, h0]
      apply ih
      intro j hj
      have := h (j + 1) (by simpa using hj)
      rw [← this]
      congr 1
      omega

theorem insertFiles_working (env : Env) (id : Int) (hexec : ∀ i, env.execErr i = none) :
    ∀ (files : List File) (i : Nat) (tx : Tx),
      insertFiles env id i files tx =
        if files.all (fun f => utf8ValidString f.Path) = true then
          .done { torrents := tx.torrents, files := tx.files ++ fileRows id files }
        else .ret none := by
  intro files
  induction files with
  | nil => intro i tx; simp [insertFiles, fileRows]
  | cons f fs ih =>
    intro i tx
    simp only [insertFiles, Tx.insertFile, hexec, List.all_cons]
    by_cases hv : utf8ValidString f.Path = true
    · simp only [hv, Bool.not_true, Bool.false_eq_true, if_false, Bool.true_and]
      rw [ih]
      simp [fileRows]
    · simp [hv]

theorem DoesTorrentExist_working (env : Env) (db : DB) (infoHash : List Nat)
    (hq : env.queryErr = none) (hr : env.rowsErr = none) :
    DoesTorrentExist env db infoHash = (db.hasTorrent infoHash, none) := by
  simp [DoesTorrentExist, connQuery, doesTorrentExistOf, hq, hr]

/-- On a working database `AddNewTorrent` is this decision list. -/
theorem AddNewTorrent_working (env : Env) (hw : env.Working) (db : DB) (infoHash : List Nat)
    (name : GoString) (files : List File) :
    AddNewTorrent env db infoHash name files =
      if utf8ValidString name = false then (none, db)
      else if totalSize files = 0 then (none, db)
      else if db.hasTorrent infoHash = true then (none, db)
      else if files.all (fun f => utf8ValidString f.Path) = true then
        (none, { torrents := db.torrents ++ [torrentRow env infoHash name files],
                 files := db.files ++ fileRows env.lastInsertId files })
      else (none, db) := by
  obtain ⟨hb, hq, hr, hi, hx, hc⟩ := hw
  unfold AddNewTorrent
  cases hn : utf8ValidString name with
  | false => simp
  | true =>
    simp only [Bool.not_true, Bool.false_eq_true, if_false, connBegin, hb]
    by_cases ht : totalSize files = 0
    · simp [ht, Tx.Rollback]
    · simp only [ht, if_false, DoesTorrentExist_working env db infoHash hq hr]
      cases he : db.hasTorrent infoHash with
      | true => simp [Tx.Rollback]
      | false =>
        simp only [Bool.false_eq_true, ne_eq, not_true_eq_false, or_self, if_false,
          Tx.insertTorrent, hi, insertFiles_working env env.lastInsertId hx]
        by_cases ha : files.all (fun f => utf8ValidString f.Path) = true
        · simp [ha, Tx.Commit, hc, torrentRow]
        · simp [ha, Tx.Rollback]

theorem hasTorrent_append_row (db : DB) (files : List FileRow) (row : TorrentRow) :
    DB.hasTorrent { torrents := db.torrents ++ [row], files := files } row.infoHash = true := by
  simp [DB.hasTorrent]

/-! ## Shared lemmas on `totalSize` -/

/-- The exact (unbounded) sum of the file sizes. -/
def sizeSum (files : List File) : Int := (files.map (fun f => f.Size)).sum

/-- The exact (unbounded) sum of the converted sizes `uint64(file.Size)`. -/
def uint64Sum (files : List File) : Nat := (files.map (fun f => toUint64 f.Size)).sum

theorem totalSizeFrom_eq (files : List File) :
    ∀ acc : Nat, acc < 2 ^ 64 → totalSizeFrom acc files = (acc + uint64Sum files) % 2 ^ 64 := by
  induction files with
  | nil =>
    intro acc h
    simp only [totalSizeFrom, uint64Sum, List.map_nil, List.sum_nil, Nat.add_zero]
    exact (Nat.mod_eq_of_lt h).symm
  | cons f fs ih =>
    intro acc _
    simp only [totalSizeFrom]
    rw [ih _ (Nat.mod_lt _ (by norm_num))]
    simp only [uint64Sum, List.map_cons, List.sum_cons]
    rw [Nat.mod_add_mod, Nat.add_assoc]

theorem totalSize_eq (files : List File) : totalSize files = uint64Sum files % 2 ^ 64 := by
  unfold totalSize
  rw [totalSizeFrom_eq files 0 (by norm_num), Nat.zero_add]

theorem toUint64_cast (x : Int) : ((toUint64 x : Nat) : Int) = x % 2 ^ 64 := by
  unfold toUint64
  exact Int.toNat_of_nonneg (Int.emod_nonneg _ (by norm_num))

theorem uint64Sum_emod (files : List File) :
    ((uint64Sum files : Nat) : Int) % 2 ^ 64 = sizeSum files % 2 ^ 64 := by
  induction files with
  | nil => simp [uint64Sum, sizeSum]
  | cons f fs ih =>
    simp only [uint64Sum, sizeSum, List.map_cons, List.sum_cons] at ih ⊢
    rw [Nat.cast_add, toUint64_cast, Int.emod_add_emod, Int.add_emod, ih, ← Int.add_emod]

theorem totalSize_cast (files : List File) :
    ((totalSize files : Nat) : Int) = sizeSum files % 2 ^ 64 := by
  rw [totalSize_eq, ← uint64Sum_emod]
  norm_cast

theorem sizeSum_nonneg (files : List File) (h : ∀ f ∈ files, 0 ≤ f.Size) :
    0 ≤ sizeSum files := by
  induction files with
  | nil => simp [sizeSum]
  | cons f fs ih =>
    simp only [sizeSum, List.map_cons, List.sum_cons]
    have h1 := h f (by simp)
    have h2 := ih (fun g hg => h g (by simp [hg]))
    simp only [sizeSum] at h2
    omega

theorem sizeSum_eq_zero_iff (files : List File) (h : ∀ f ∈ files, 0 ≤ f.Size) :
    sizeSum files = 0 ↔ ∀ f ∈ files, f.Size = 0 := by
  induction files with
  | nil => simp [sizeSum]
  | cons f fs ih =>
    have h1 := h f (by simp)
    have hfs : ∀ g ∈ fs, 0 ≤ g.Size := fun g hg => h g (by simp [hg])
    have h2 := sizeSum_nonneg fs hfs
    have ih2 := ih hfs
    simp only [sizeSum, List.map_cons, List.sum_cons, List.mem_cons, forall_eq_or_imp] at ih2 h2 ⊢
    constructor
    · intro hs
      have hz : f.Size = 0 := by omega
      exact ⟨hz, ih2.mp (by omega)⟩
    · rintro ⟨hz, hall⟩
      have := ih2.mpr hall
      omega

/-! ## Persistence: the claims -/

/-- C1. `AddNewTorrent` is atomic on the committed state: whatever the infohash,
name and file list, and however the database calls succeed or fail, the
committed state after the call is either the state before, or the state before
extended by exactly one torrent row for the infohash and by one file row
(size, path) per file of the list, in list order. -/
theorem AddNewTorrent_atomic (env : Env) (db : DB) (infoHash : List Nat) (name : GoString)
    (files : List File) :
    (AddNewTorrent env db infoHash name files).2 = db ∨
    (AddNewTorrent env db infoHash name files).2 =
      { torrents := db.torrents ++
          [{ id := env.lastInsertId, infoHash := infoHash, name := name,
             totalSize := totalSize files, discoveredOn := env.now }],
        files := db.files ++
          files.map (fun f => { torrentId := env.lastInsertId, size := f.Size, path := f.Path }) } := by
  simpa [torrentRow, fileRows] using AddNewTorrent_state env db infoHash name files

/-- C6. If the file list holds a file whose path is not valid UTF-8, and the
database calls made before that file is reached succeed (begin, the existence
query, the torrent insertion, the insertions of the files before it), then
`AddNewTorrent` returns nil and the committed state is unchanged: no torrent
row and no file row is committed, the rows of the preceding valid files
included. -/
theorem AddNewTorrent_invalid_path_rolls_back (env : Env) (db : DB) (infoHash : List Nat)
    (name : GoString) (pre : List File) (bad : File) (post : List File)
    (hbad : utf8ValidString bad.Path = false)
    (hbegin : env.beginErr = none) (hquery : env.queryErr = none)
    (hinsert : env.insertErr = none)
    (hexec : ∀ i, i < pre.length → env.execErr i = none) :
    AddNewTorrent env db infoHash name (pre ++ bad :: post) = (none, db) := by
  have hloop : ∀ tx, insertFiles env env.lastInsertId 0 (pre ++ bad :: post) tx = .ret none :=
    fun tx => insertFiles_invalid env env.lastInsertId bad post hbad pre 0 tx
      (fun j hj => by simpa using hexec j hj)
  unfold AddNewTorrent
  split
  · rfl
  · simp only [connBegin, hbegin]
    split
    · rfl
    · have hd : (DoesTorrentExist env db infoHash).2 = none := by
        simp only [DoesTorrentExist, connQuery, hquery, doesTorrentExistOf]
        cases env.rowsErr <;> simp
      split
      · simp [hd, Tx.Rollback]
      · simp only [Tx.insertTorrent, hinsert, hloop, Tx.Rollback]

/-- Witness of C6: a valid file followed by a file whose path is the byte 0xFF. -/
theorem AddNewTorrent_invalid_path_rolls_back_witness :
    utf8ValidString [0xFF] = false ∧
    AddNewTorrent (Env.working 7 1700000000) { torrents := [], files := [] } [0xAB] [0x61]
      ([{ Size := 3, Path := [0x61] }] ++ { Size := 4, Path := [0xFF] } :: []) =
      (none, { torrents := [], files := [] }) :=
  ⟨by decide,
   AddNewTorrent_invalid_path_rolls_back (Env.working 7 1700000000)
    { torrents := [], files := [] } [0xAB] [0x61] [{ Size := 3, Path := [0x61] }]
    { Size := 4, Path := [0xFF] } [] (by decide) rfl rfl rfl (fun _ _ => rfl)⟩

/-- C7, as stated, fails: with the empty file list (total size zero) and a
failing `conn.Begin`, and with an existing torrent and a failing existence
query, `AddNewTorrent` returns a non-nil error. -/
theorem AddNewTorrent_ignored_returns_error :
    (sizeSum [] = 0 ∧
     (AddNewTorrent { Env.working 7 0 with beginErr := some (.base "connection refused") }
        { torrents := [], files := [] } [0xAB] [0x61] []).1 =
       some (.wrap (.base "connection refused") "conn.Begin")) ∧
    (DB.hasTorrent { torrents := [{ id := 1, infoHash := [0xAB], name := [0x61],
                                    totalSize := 3, discoveredOn := 0 }], files := [] } [0xAB] = true ∧
     (AddNewTorrent { Env.working 7 0 with queryErr := some (.base "connection reset") }
        { torrents := [{ id := 1, infoHash := [0xAB], name := [0x61],
                         totalSize := 3, discoveredOn := 0 }], files := [] }
        [0xAB] [0x61] [{ Size := 3, Path := [0x61] }]).1 =
       some (.base "connection reset")) := by
  refine ⟨⟨rfl, rfl⟩, by decide, rfl⟩

/-- C7, amended. `AddNewTorrent` returns nil and leaves the committed state
unchanged whenever the name is not valid UTF-8; or `conn.Begin` succeeds and
the total of the file sizes is zero (exactly, or as computed modulo 2^64; the
empty list included); or `conn.Begin` and the existence query succeed with no
iteration error and a torrent with the infohash is already committed. On a
working database a second call with the same arguments returns nil and leaves
the state the first call left. -/
theorem AddNewTorrent_ignored_noop (env env2 : Env) (db : DB) (infoHash : List Nat)
    (name : GoString) (files : List File) :
    ((utf8ValidString name = false ∨
      (env.beginErr = none ∧ (sizeSum files = 0 ∨ totalSize files = 0)) ∨
      (env.beginErr = none ∧ env.queryErr = none ∧ env.rowsErr = none ∧
        db.hasTorrent infoHash = true)) →
      AddNewTorrent env db infoHash name files = (none, db)) ∧
    (env.Working → env2.Working →
      AddNewTorrent env2 (AddNewTorrent env db infoHash name files).2 infoHash name files =
        (none, (AddNewTorrent env db infoHash name files).2)) := by
  constructor
  · intro h
    unfold AddNewTorrent
    split
    · rfl
    · rename_i hn
      rcases h with h | ⟨hb, hz⟩ | ⟨hb, hq, hr, he⟩
      · simp [h] at hn
      · have ht : totalSize files = 0 := by
          rcases hz with hz | hz
          · have := totalSize_cast files
            rw [hz] at this
            simpa using this
          · exact hz
        simp [connBegin, hb, ht, Tx.Rollback]
      · simp only [connBegin, hb]
        split
        · rfl
        · simp [DoesTorrentExist_working env db infoHash hq hr, he, Tx.Rollback]
  · intro hw hw2
    rw [AddNewTorrent_working env hw db infoHash name files]
    by_cases hn : utf8ValidString name = false
    · simp [hn, AddNewTorrent_working env2 hw2]
    · by_cases ht : totalSize files = 0
      · simp [hn, ht, AddNewTorrent_working env2 hw2]
      · by_cases he : db.hasTorrent infoHash = true
        · simp [hn, ht, he, AddNewTorrent_working env2 hw2]
        · by_cases ha : files.all (fun f => utf8ValidString f.Path) = true
          · simp only [hn, ht, he, ha, if_true, if_false]
            rw [AddNewTorrent_working env2 hw2]
            have := hasTorrent_append_row db (db.files ++ fileRows env.lastInsertId files)
              (torrentRow env infoHash name files)
            simp only [torrentRow] at this
            simp [hn, ht, torrentRow, this]
          · simp [hn, ht, he, ha, AddNewTorrent_working env2 hw2]

/-- Witness of C7 (amended): a zero-sized file list is ignored, and a torrent
inserted by a first call is left alone by a second one. -/
theorem AddNewTorrent_ignored_noop_witness :
    AddNewTorrent (Env.working 7 0) { torrents := [], files := [] } [0xAB] [0x61]
      [{ Size := 0, Path := [0x61] }] = (none, { torrents := [], files := [] }) ∧
    AddNewTorrent (Env.working 8 5)
      (AddNewTorrent (Env.working 7 0) { torrents := [], files := [] } [0xAB] [0x61]
        [{ Size := 3, Path := [0x61] }]).2 [0xAB] [0x61] [{ Size := 3, Path := [0x61] }] =
      (none, (AddNewTorrent (Env.working 7 0) { torrents := [], files := [] } [0xAB] [0x61]
        [{ Size := 3, Path := [0x61] }]).2) :=
  ⟨(AddNewTorrent_ignored_noop (Env.working 7 0) (Env.working 8 5)
      { torrents := [], files := [] } [0xAB] [0x61] [{ Size := 0, Path := [0x61] }]).1
      (Or.inr (Or.inl ⟨rfl, Or.inl (by decide)⟩)),
   (AddNewTorrent_ignored_noop (Env.working 7 0) (Env.working 8 5)
      { torrents := [], files := [] } [0xAB] [0x61] [{ Size := 3, Path := [0x61] }]).2
      ⟨rfl, rfl, rfl, rfl, fun _ => rfl, rfl⟩ ⟨rfl, rfl, rfl, rfl, fun _ => rfl, rfl⟩⟩

/-- C8, the code at the failing input: the query succeeds, the row iteration
fails (`rows.Next()` is false, `rows.Err()` is set), and `DoesTorrentExist`
returns `(false, nil)`, although a matching row is committed. -/
theorem DoesTorrentExist_iteration_error_returns_nil :
    doesTorrentExistOf (.ok { next := false, err := some (.base "unexpected EOF") }) =
      (false, none) ∧
    DoesTorrentExist { Env.working 7 0 with rowsErr := some (.base "unexpected EOF") }
      { torrents := [{ id := 1, infoHash := [0xAB], name := [0x61],
                       totalSize := 3, discoveredOn := 0 }], files := [] } [0xAB] =
      (false, none) := by
  exact ⟨rfl, rfl⟩

/-- C9. The `totalSize` computed by `AddNewTorrent` is the sum of the values
`uint64(file.Size)` modulo 2^64; for a list of non-negative sizes whose exact
sum is below 2^64 it is that exact sum, and it is zero exactly when every file
has size 0. On the code: any torrent row the call commits carries this value as
`total_size`; once `conn.Begin` has succeeded a zero `totalSize` makes the call
return nil with nothing committed; on a working database, with a valid name,
valid paths and no torrent of that infohash yet, the call commits the torrent
row with `total_size = totalSize files` and all file rows exactly when
`totalSize` is not zero; hence for lists of non-negative sizes with exact sum
below 2^64 the torrent is skipped there if and only if every file has size 0. -/
theorem totalSize_is_sum (files : List File) :
    totalSize files = (files.map (fun f => toUint64 f.Size)).sum % 2 ^ 64 ∧
    ((∀ f ∈ files, 0 ≤ f.Size) → (files.map (fun f => f.Size)).sum < 2 ^ 64 →
      ((totalSize files : Int) = (files.map (fun f => f.Size)).sum ∧
       (totalSize files = 0 ↔ ∀ f ∈ files, f.Size = 0))) ∧
    (∀ (env : Env) (db : DB) (infoHash : List Nat) (name : GoString),
      (AddNewTorrent env db infoHash name files).2.torrents = db.torrents ∨
      (AddNewTorrent env db infoHash name files).2.torrents =
        db.torrents ++ [{ id := env.lastInsertId, infoHash := infoHash, name := name,
                          totalSize := totalSize files, discoveredOn := env.now }]) ∧
    (∀ (env : Env) (db : DB) (infoHash : List Nat) (name : GoString),
      env.beginErr = none → totalSize files = 0 →
      AddNewTorrent env db infoHash name files = (none, db)) ∧
    (∀ (env : Env) (db : DB) (infoHash : List Nat) (name : GoString),
      env.Working → utf8ValidString name = true →
      files.all (fun f => utf8ValidString f.Path) = true → db.hasTorrent infoHash = false →
      AddNewTorrent env db infoHash name files =
        if totalSize files = 0 then (none, db)
        else
          (none,
           { torrents := db.torrents ++
               [{ id := env.lastInsertId, infoHash := infoHash, name := name,
                  totalSize := totalSize files, discoveredOn := env.now }],
             files := db.files ++
               files.map (fun f =>
                 { torrentId := env.lastInsertId, size := f.Size, path := f.Path }) })) ∧
    (∀ (env : Env) (db : DB) (infoHash : List Nat) (name : GoString),
      env.Working → utf8ValidString name = true →
      files.all (fun f => utf8ValidString f.Path) = true → db.hasTorrent infoHash = false →
      (∀ f ∈ files, 0 ≤ f.Size) → (files.map (fun f => f.Size)).sum < 2 ^ 64 →
      ((AddNewTorrent env db infoHash name files).2 = db ↔ ∀ f ∈ files, f.Size = 0)) := by
  have harith : (∀ f ∈ files, 0 ≤ f.Size) → (files.map (fun f => f.Size)).sum < 2 ^ 64 →
      ((totalSize files : Int) = (files.map (fun f => f.Size)).sum ∧
       (totalSize files = 0 ↔ ∀ f ∈ files, f.Size = 0)) := by
    intro hnn hlt
    have h0 := sizeSum_nonneg files hnn
    have hc : (totalSize files : Int) = sizeSum files := by
      rw [totalSize_cast]
      exact Int.emod_eq_of_lt h0 hlt
    refine ⟨hc, ?_⟩
    rw [← sizeSum_eq_zero_iff files hnn, ← hc]
    norm_cast
  have hcode : ∀ (env : Env) (db : DB) (infoHash : List Nat) (name : GoString),
      env.Working → utf8ValidString name = true →
      files.all (fun f => utf8ValidString f.Path) = true → db.hasTorrent infoHash = false →
      AddNewTorrent env db infoHash name files =
        if totalSize files = 0 then (none, db)
        else
          (none,
           { torrents := db.torrents ++
               [{ id := env.lastInsertId, infoHash := infoHash, name := name,
                  totalSize := totalSize files, discoveredOn := env.now }],
             files := db.files ++
               files.map (fun f =>
                 { torrentId := env.lastInsertId, size := f.Size, path := f.Path }) }) := by
    intro env db infoHash name hw hn hp he
    rw [AddNewTorrent_working env hw db infoHash name files]
    by_cases ht : totalSize files = 0
    · simp [hn, ht]
    · simp [hn, ht, he, hp, torrentRow, fileRows]
  refine ⟨totalSize_eq files, harith, ?_, ?_, hcode, ?_⟩
  · intro env db infoHash name
    rcases AddNewTorrent_state env db infoHash name files with h | h
    · left; rw [h]
    · right; rw [h]; rfl
  · intro env db infoHash name hb ht
    unfold AddNewTorrent
    split
    · rfl
    · simp [connBegin, hb, ht, Tx.Rollback]
  · intro env db infoHash name hw hn hp he hnn hlt
    rw [hcode env db infoHash name hw hn hp he, ← (harith hnn hlt).2]
    by_cases ht : totalSize files = 0
    · simp [ht]
    · simp only [ht, if_false, iff_false]
      intro h
      have hlen := congrArg (fun d : DB => d.torrents.length) h
      simp at hlen

/-- Witness of C9: sizes 3 and 0 have total 3, which is not zero, so on a working
database the torrent is committed with `total_size` 3; a single file of size 0 is
skipped. -/
theorem totalSize_is_sum_witness :
    ((totalSize [{ Size := 3, Path := [0x61] }, { Size := 0, Path := [0x62] }] : Int) =
      ([{ Size := 3, Path := [0x61] }, { Size := 0, Path := [0x62] }].map
        (fun f : File => f.Size)).sum ∧
    (totalSize [{ Size := 3, Path := [0x61] }, { Size := 0, Path := [0x62] }] = 0 ↔
      ∀ f ∈ [({ Size := 3, Path := [0x61] } : File), { Size := 0, Path := [0x62] }],
        f.Size = 0)) ∧
    AddNewTorrent (Env.working 7 5) { torrents := [], files := [] } [0xAB] [0x61]
      [{ Size := 0, Path := [0x61] }] = (none, { torrents := [], files := [] }) ∧
    ((AddNewTorrent (Env.working 7 5) { torrents := [], files := [] } [0xAB] [0x61]
        [{ Size := 3, Path := [0x61] }, { Size := 0, Path := [0x62] }]).2 =
        { torrents := [], files := [] } ↔
      ∀ f ∈ [({ Size := 3, Path := [0x61] } : File), { Size := 0, Path := [0x62] }],
        f.Size = 0) :=
  ⟨(totalSize_is_sum [{ Size := 3, Path := [0x61] }, { Size := 0, Path := [0x62] }]).2.1
      (by decide) (by decide),
   (totalSize_is_sum [{ Size := 0, Path := [0x61] }]).2.2.2.1 (Env.working 7 5)
      { torrents := [], files := [] } [0xAB] [0x61] rfl (by decide),
   (totalSize_is_sum [{ Size := 3, Path := [0x61] }, { Size := 0, Path := [0x62] }]).2.2.2.2.2
      (Env.working 7 5) { torrents := [], files := [] } [0xAB] [0x61]
      ⟨rfl, rfl, rfl, rfl, fun _ => rfl, rfl⟩ (by decide) (by decide) (by decide)
      (by decide) (by decide)⟩

/-! ## Shared lemmas on the event loop and `checkAddrs` -/

theorem eventLoop_append {σ : Type} (database : Database σ) :
    ∀ (pre : List Event) (s : σ) (es : List Event),
      (eventLoop database s pre).control = .running →
      eventLoop database s (pre ++ es) =
        { calls := (eventLoop database s pre).calls ++
            (eventLoop database (eventLoop database s pre).db es).calls,
          db := (eventLoop database (eventLoop database s pre).db es).db,
          control := (eventLoop database (eventLoop database s pre).db es).control } := by
  intro pre
  induction pre with
  | nil => intro s es _; simp [eventLoop]
  | cons e pre ih =>
    intro s es h
    simp only [List.cons_append, eventLoop] at h ⊢
    cases hc : (loopBody database s e).control with
    | running =>
      simp only [hc, List.append_eq] at h ⊢
      rw [ih _ es h]
      simp [List.append_assoc]
    | stopped => simp [hc] at h
    | fatal => simp [hc] at h

theorem loopBody_terminate {σ : Type} (database : Database σ) (s : σ) (e : Event) :
    (Call.terminate ∈ (loopBody database s e).calls → (loopBody database s e).control = .stopped)
    ∧ Call.close ∉ (loopBody database s e).calls := by
  cases e with
  | candidate result =>
    simp only [loopBody]
    cases (database.DoesTorrentExist s result.infoHash).1.2 with
    | some err => simp
    | none => cases (database.DoesTorrentExist s result.infoHash).1.1 <;> simp
  | metadata md =>
    simp only [loopBody]
    cases (database.AddNewTorrent s md.InfoHash md.Name md.Files).1 <;> simp
  | interrupt => simp [loopBody]

theorem eventLoop_running_calls {σ : Type} (database : Database σ) :
    ∀ (es : List Event) (s : σ), (eventLoop database s es).control = .running →
      Call.terminate ∉ (eventLoop database s es).calls ∧
      Call.close ∉ (eventLoop database s es).calls := by
  intro es
  induction es with
  | nil => intro s _; simp [eventLoop]
  | cons e es ih =>
    intro s h
    simp only [eventLoop] at h ⊢
    have hb := loopBody_terminate database s e
    cases hc : (loopBody database s e).control with
    | running =>
      simp only [hc] at h ⊢
      have := ih _ h
      refine ⟨?_, ?_⟩
      · simp only [List.mem_append, not_or]
        exact ⟨fun hm => by simpa [hc] using hb.1 hm, this.1⟩
      · simp only [List.mem_append, not_or]
        exact ⟨hb.2, this.2⟩
    | stopped => simp [hc] at h
    | fatal => simp [hc] at h

theorem checkAddrsFrom_nil_iff (resolve : String → Option GoError) :
    ∀ (addrs : List String) (i : Nat),
      (checkAddrsFrom resolve i addrs).1 = none ↔ ∀ a ∈ addrs, resolve a = none := by
  intro addrs
  induction addrs with
  | nil => intro i; simp [checkAddrsFrom]
  | cons a rest ih =>
    intro i
    simp only [checkAddrsFrom, List.mem_cons, forall_eq_or_imp]
    cases h : resolve a with
    | some err => simp
    | none => simpa using ih (i + 1)

theorem checkAddrsFrom_error (resolve : String → Option GoError) :
    ∀ (addrs : List String) (i : Nat), (checkAddrsFrom resolve i addrs).1 ≠ none →
      ∃ pre a post e, addrs = pre ++ a :: post ∧ (∀ b ∈ pre, resolve b = none) ∧
        resolve a = some e ∧
        checkAddrsFrom resolve i addrs =
          (some (.wrap e (addrErrorMessage (i + pre.length + 1) a)), pre ++ [a]) := by
  intro addrs
  induction addrs with
  | nil => intro i h; simp [checkAddrsFrom] at h
  | cons a rest ih =>
    intro i h
    simp only [checkAddrsFrom] at h ⊢
    cases hr : resolve a with
    | some err =>
      exact ⟨[], a, rest, err, rfl, by simp, hr, by simp⟩
    | none =>
      simp only [hr] at h
      obtain ⟨pre, b, post, e, hsplit, hpre, hb, heq⟩ := ih (i + 1) h
      refine ⟨a :: pre, b, post, e, by simp [hsplit], ?_, hb, ?_⟩
      · intro c hc
        rcases List.mem_cons.mp hc with rfl | hc
        · exact hr
        · exact hpre c hc
      · simp only [heq, List.length_cons, List.cons_append]
        congr 4
        omega

/-! ## `main.go`: the claims -/

/-- C2. In one iteration of the event loop on a harvested candidate, the
existence check is made first, and `Sink` is called on a value exactly when
that value is the candidate and `DoesTorrentExist` on its infohash returned
`(false, nil)`; so when it returned true nothing is sunk. -/
theorem sink_iff_not_exists {σ : Type} (database : Database σ) (s : σ) (result r2 : Result) :
    (Call.sink r2 ∈ (loopBody database s (.candidate result)).calls ↔
      (r2 = result ∧ (database.DoesTorrentExist s result.infoHash).1 = (false, none))) ∧
    (loopBody database s (.candidate result)).calls.take 2 =
      [.debugTrawled result.infoHash, .doesTorrentExist result.infoHash] := by
  simp only [loopBody]
  rcases hd : (database.DoesTorrentExist s result.infoHash).1 with ⟨ex, er⟩
  cases er with
  | some err => simp
  | none => cases ex <;> simp [eq_comm]

/-- C3, the code at the failing input: `main` hands `opFlags.Verbosity` to
`metadata.NewSink` as its second argument, for every option set; with the flag
defaults that argument is 1 while `LeechMaxN` is 50. -/
theorem newSink_second_argument_is_verbosity :
    (∀ o : opts, (newSinkArgs o).arg2 = o.Verbosity) ∧
    (newSinkArgs opts.defaults).arg2 = 1 ∧ opts.defaults.LeechMaxN = 50 ∧
    (newSinkArgs opts.defaults).arg2 ≠ (opts.defaults.LeechMaxN : Int) := by
  refine ⟨fun _ => rfl, rfl, rfl, by decide⟩

/-- C4. At any point of the event loop (after any events that left it running),
when `DoesTorrentExist` on a candidate or `AddNewTorrent` on a completed
metadata returns a non-nil error, the iteration ends in the fatal branch with
that error logged last, `Sink` is not called in it, and the whole run makes no
call after it: the later events are not processed and `Close` is not reached. -/
theorem fatal_on_persistence_error {σ : Type} (database : Database σ) (s : σ)
    (pre : List Event) (ev : Event) (es : List Event) (err : GoError)
    (hrun : (eventLoop database s pre).control = .running)
    (herr :
      (∃ result, ev = .candidate result ∧
        (database.DoesTorrentExist (eventLoop database s pre).db result.infoHash).1.2 = some err) ∨
      (∃ md, ev = .metadata md ∧
        (database.AddNewTorrent (eventLoop database s pre).db md.InfoHash md.Name md.Files).1 =
          some err)) :
    (loopBody database (eventLoop database s pre).db ev).control = .fatal ∧
    (∃ msg, (loopBody database (eventLoop database s pre).db ev).calls.getLast? =
      some (.fatal msg err)) ∧
    (∀ r, Call.sink r ∉ (loopBody database (eventLoop database s pre).db ev).calls) ∧
    (mainRun database s (pre ++ ev :: es)).calls =
      (eventLoop database s pre).calls ++
        (loopBody database (eventLoop database s pre).db ev).calls ∧
    (mainRun database s (pre ++ ev :: es)).control = .fatal := by
  have hbody : (loopBody database (eventLoop database s pre).db ev).control = .fatal ∧
      (∃ msg, (loopBody database (eventLoop database s pre).db ev).calls.getLast? =
        some (.fatal msg err)) ∧
      (∀ r, Call.sink r ∉ (loopBody database (eventLoop database s pre).db ev).calls) := by
    rcases herr with ⟨result, rfl, h⟩ | ⟨md, rfl, h⟩
    · simp [loopBody, h]
    · simp [loopBody, h]
  obtain ⟨hc, hlast, hsink⟩ := hbody
  refine ⟨hc, hlast, hsink, ?_, ?_⟩
  · simp [mainRun, eventLoop_append database pre s (ev :: es) hrun, eventLoop, hc]
  · simp [mainRun, eventLoop_append database pre s (ev :: es) hrun, eventLoop, hc]

/-- Witness of C4: the existence query fails for a candidate; the metadata and
the interrupt that follow are not processed. -/
theorem fatal_on_persistence_error_witness :
    (mainRun (postgresDatabase { Env.working 7 0 with queryErr := some (.base "connection reset") })
      { torrents := [], files := [] }
      ([] ++ Event.candidate { infoHash := [0xAB], peerAddr := "10.0.0.1:6881" } ::
        [.metadata { InfoHash := [0xCD], Name := [0x61], Files := [{ Size := 3, Path := [0x61] }] },
         .interrupt])).calls =
      [.debugTrawled [0xAB], .doesTorrentExist [0xAB],
       .fatal "Could not check whether torrent exists!" (.base "connection reset")] :=
  (fatal_on_persistence_error
    (postgresDatabase { Env.working 7 0 with queryErr := some (.base "connection reset") })
    { torrents := [], files := [] } []
    (.candidate { infoHash := [0xAB], peerAddr := "10.0.0.1:6881" })
    [.metadata { InfoHash := [0xCD], Name := [0x61], Files := [{ Size := 3, Path := [0x61] }] },
     .interrupt]
    (.base "connection reset") rfl (Or.inl ⟨_, rfl, rfl⟩)).2.2.2.1

/-- C5. The iteration on an interrupt calls `Terminate` once and sets `stopped`.
At any point of the event loop (after any events that left it running), once
the interrupt is received the run makes exactly two more collaborator calls,
`Terminate` then `Close` (followed only by the log of a `Close` error, if any):
no event after the interrupt is processed, and over the whole run `Terminate`
and `Close` are each called exactly once. -/
theorem interrupt_terminates {σ : Type} (database : Database σ) (s : σ)
    (pre post : List Event)
    (hrun : (eventLoop database s pre).control = .running) :
    (loopBody database (eventLoop database s pre).db .interrupt).calls = [.terminate] ∧
    (loopBody database (eventLoop database s pre).db .interrupt).control = .stopped ∧
    (mainRun database s (pre ++ .interrupt :: post)).calls =
      (eventLoop database s pre).calls ++ [.terminate, .close] ++
        (match (database.Close (eventLoop database s pre).db).1 with
         | some err => [.errorLog "Could not close database!" err]
         | none => []) ∧
    (mainRun database s (pre ++ .interrupt :: post)).calls.count .terminate = 1 ∧
    (mainRun database s (pre ++ .interrupt :: post)).calls.count .close = 1 ∧
    (mainRun database s (pre ++ .interrupt :: post)).control = .stopped := by
  have hno := eventLoop_running_calls database pre s hrun
  have hcalls : (mainRun database s (pre ++ .interrupt :: post)).calls =
      (eventLoop database s pre).calls ++ [.terminate, .close] ++
        (match (database.Close (eventLoop database s pre).db).1 with
         | some err => [.errorLog "Could not close database!" err]
         | none => []) := by
    simp only [mainRun, eventLoop_append database pre s (.interrupt :: post) hrun, eventLoop,
      loopBody]
    cases (database.Close (eventLoop database s pre).db).1 <;> simp
  refine ⟨rfl, rfl, hcalls, ?_, ?_, ?_⟩
  · rw [hcalls]
    cases (database.Close (eventLoop database s pre).db).1 <;>
      simp [List.count_append, List.count_eq_zero_of_not_mem hno.1]
  · rw [hcalls]
    cases (database.Close (eventLoop database s pre).db).1 <;>
      simp [List.count_append, List.count_eq_zero_of_not_mem hno.2]
  · simp only [mainRun, eventLoop_append database pre s (.interrupt :: post) hrun, eventLoop,
      loopBody]
    cases (database.Close (eventLoop database s pre).db).1 <;> simp

/-- Witness of C5: a candidate is sunk, the interrupt arrives, and the candidate
and metadata received after it are left unprocessed. -/
theorem interrupt_terminates_witness :
    (mainRun (postgresDatabase (Env.working 7 0)) { torrents := [], files := [] }
      ([.candidate { infoHash := [0xAB], peerAddr := "10.0.0.1:6881" }] ++ Event.interrupt ::
        [.candidate { infoHash := [0xEF], peerAddr := "10.0.0.2:6881" },
         .metadata { InfoHash := [0xCD], Name := [0x61],
                     Files := [{ Size := 3, Path := [0x61] }] }])).calls =
      [.debugTrawled [0xAB], .doesTorrentExist [0xAB],
       .sink { infoHash := [0xAB], peerAddr := "10.0.0.1:6881" }] ++ [.terminate, .close] ++ [] :=
  (interrupt_terminates (postgresDatabase (Env.working 7 0)) { torrents := [], files := [] }
    [.candidate { infoHash := [0xAB], peerAddr := "10.0.0.1:6881" }]
    [.candidate { infoHash := [0xEF], peerAddr := "10.0.0.2:6881" },
     .metadata { InfoHash := [0xCD], Name := [0x61], Files := [{ Size := 3, Path := [0x61] }] }]
    rfl).2.2.1

/-- C10. `checkAddrs` returns nil exactly when every address of the list
resolves (so nil on the empty list); otherwise the list splits at its first
non-resolving address, the returned error wraps the resolver error of that
address under the message built from its 1-based position and the address, and
the addresses examined are those up to and including it. -/
theorem checkAddrs_spec (resolve : String → Option GoError) (addrs : List String) :
    ((checkAddrs resolve addrs).1 = none ↔ ∀ a ∈ addrs, resolve a = none) ∧
    checkAddrs resolve [] = (none, []) ∧
    ((checkAddrs resolve addrs).1 ≠ none →
      ∃ pre a post e, addrs = pre ++ a :: post ∧ (∀ b ∈ pre, resolve b = none) ∧
        resolve a = some e ∧
        checkAddrs resolve addrs =
          (some (.wrap e (toString (pre.length + 1) ++ "(th) address (" ++ a ++ ") error")),
           pre ++ [a])) := by
  refine ⟨checkAddrsFrom_nil_iff resolve addrs 0, rfl, ?_⟩
  intro h
  obtain ⟨pre, a, post, e, h1, h2, h3, h4⟩ := checkAddrsFrom_error resolve addrs 0 h
  refine ⟨pre, a, post, e, h1, h2, h3, ?_⟩
  simpa [checkAddrs, addrErrorMessage] using h4

/-- Witness of C10: the second of three addresses does not resolve; the third
is not examined. -/
theorem checkAddrs_spec_witness :
    ∃ pre a post e, ["0.0.0.0:0", "nohost", "alsobad"] = pre ++ a :: post ∧
      (∀ b ∈ pre, (fun x : String => if x.length < 8 then
          some (GoError.base "missing port in address") else none) b = none) ∧
      (fun x : String => if x.length < 8 then
          some (GoError.base "missing port in address") else none) a = some e ∧
      checkAddrs (fun x : String => if x.length < 8 then
          some (GoError.base "missing port in address") else none)
        ["0.0.0.0:0", "nohost", "alsobad"] =
        (some (.wrap e (toString (pre.length + 1) ++ "(th) address (" ++ a ++ ") error")),
         pre ++ [a]) :=
  (checkAddrs_spec (fun x : String => if x.length < 8 then
      some (GoError.base "missing port in address") else none)
    ["0.0.0.0:0", "nohost", "alsobad"]).2.2 (by decide)

/-! ## Evaluations of the embedding on concrete inputs -/

theorem utf8ValidString_samples :
    utf8ValidString [0x61, 0xC3, 0xA9] = true ∧ utf8ValidString [0xFF] = false ∧
    utf8ValidString [0xED, 0xA0, 0x80] = false ∧ utf8ValidString [0xC0, 0x80] = false ∧
    utf8ValidString [0xF0, 0x9F, 0x98, 0x80] = true ∧ utf8ValidString [0xE2, 0x82] = false := by
  decide

theorem totalSize_samples :
    totalSize [{ Size := -1, Path := [] }, { Size := 1, Path := [] }] = 0 ∧
    totalSize [{ Size := 3, Path := [] }, { Size := 4, Path := [] }] = 7 ∧
    totalSize [{ Size := -1, Path := [] }] = 2 ^ 64 - 1 := by
  decide

theorem AddNewTorrent_commits_sample :
    AddNewTorrent (Env.working 7 1700000000) { torrents := [], files := [] } [0xAB] [0x61]
      [{ Size := 3, Path := [0x61] }, { Size := 4, Path := [0x62] }] =
      (none,
       { torrents := [{ id := 7, infoHash := [0xAB], name := [0x61], totalSize := 7,
                        discoveredOn := 1700000000 }],
         files := [{ torrentId := 7, size := 3, path := [0x61] },
                   { torrentId := 7, size := 4, path := [0x62] }] }) := by
  decide

theorem AddNewTorrent_commit_failure_sample :
    AddNewTorrent { Env.working 7 0 with commitErr := some (.base "commit failed") }
      { torrents := [], files := [] } [0xAB] [0x61] [{ Size := 3, Path := [0x61] }] =
      (some (.wrap (.base "commit failed") "tx.Commit"), { torrents := [], files := [] }) := by
  rfl

theorem AddNewTorrent_exec_failure_sample :
    AddNewTorrent
      { Env.working 7 0 with execErr := fun i => if i = 1 then some (.base "exec failed") else none }
      { torrents := [], files := [] } [0xAB] [0x61]
      [{ Size := 3, Path := [0x61] }, { Size := 4, Path := [0x62] }] =
      (some (.wrap (.base "exec failed") "tx.Exec (INSERT INTO files)"),
       { torrents := [], files := [] }) := by
  rfl

theorem checkAddrs_sample :
    (checkAddrs (fun x : String => if x.length < 8 then
        some (GoError.base "missing port in address") else none)
      ["0.0.0.0:0", "nohost", "alsobad"]).2 = ["0.0.0.0:0", "nohost"] := by
  decide

end DhtCrawler
